import Mathlib

/-!
Verification of the Market Overview API backend (`main.py`).

The module shallowly embeds the pure content of the service's functions:
upstream HTTP/SMTP/spreadsheet effects are modelled by explicit parameters
(`Except Unit α` for calls that can raise, plain functions for query
endpoints), Python floats by `ℚ`, Python dicts by ordered association
lists with dict-style key update, and Python exceptions by the `Except`
error case.  Each embedded definition mirrors one function of `main.py`.
-/

namespace MarketAPI

/-! ## Market data fetcher: `fetch_top_stocks` -/

/-- A full equity row as held by the screening endpoint (the upstream
`yfscreen` data), before `fetch_top_stocks` projects its four output
columns.  `percentChange`, `price`, `volume`, `marketCap` are the fields
the constructed filters constrain; `region` is the listing region. -/
structure StockRow where
  symbol : String
  price : ℚ
  percentChange : ℚ
  volume : ℚ
  marketCap : ℚ
  region : String
  deriving DecidableEq, Repr

/-- A filter value: numeric or string, as in the Python filter lists
`["gt", ["percentchange", 3]]` / `["eq", ["region", r]]`. -/
inductive FVal where
  | num (x : ℚ)
  | str (s : String)
  deriving DecidableEq, Repr

/-- One filter term `[op, [field, value]]` of the screening query. -/
structure FilterTerm where
  op : String
  field : String
  value : FVal
  deriving DecidableEq, Repr

/-- Semantics of a single screening filter term on a row (the screening
endpoint's documented behaviour: unknown terms match nothing). -/
def evalFilter (f : FilterTerm) (r : StockRow) : Bool :=
  match f.op, f.field, f.value with
  | "gt", "percentchange", FVal.num x => decide (x < r.percentChange)
  | "lt", "percentchange", FVal.num x => decide (r.percentChange < x)
  | "gt", "intradaymarketcap", FVal.num x => decide (x < r.marketCap)
  | "gt", "intradayprice", FVal.num x => decide (x < r.price)
  | "gt", "dayvolume", FVal.num x => decide (x < r.volume)
  | "eq", "region", FVal.str s => decide (r.region = s)
  | _, _, _ => false

/-- A row matches a query when it satisfies every filter term. -/
def evalFilters (fs : List FilterTerm) (r : StockRow) : Bool :=
  fs.all (fun f => evalFilter f r)

/-- The filter list built by `fetch_top_stocks` (main.py lines 51-65):
percent-change threshold by direction, market-cap/price thresholds chosen
by `region_filter is None`, a day-volume floor, and — only when
`region_filter` is truthy (a non-empty string) — a region equality term. -/
def buildFilters (region_filter : Option String) (gainers : Bool) : List FilterTerm :=
  let pcFilter : FilterTerm :=
    if gainers then ⟨"gt", "percentchange", FVal.num 3⟩
    else ⟨"lt", "percentchange", FVal.num (-(5/2 : ℚ))⟩
  let market_cap_threshold : ℚ := if region_filter = none then 2000000000 else 1000000000
  let price_threshold : ℚ := if region_filter = none then 5 else 10
  let base : List FilterTerm :=
    [pcFilter,
     ⟨"gt", "intradaymarketcap", FVal.num market_cap_threshold⟩,
     ⟨"gt", "intradayprice", FVal.num price_threshold⟩,
     ⟨"gt", "dayvolume", FVal.num 1000⟩]
  match region_filter with
  | some r => if r ≠ "" then base ++ [⟨"eq", "region", FVal.str r⟩] else base
  | none => base

/-- Sort order used by `data.sort_values("regularMarketChangePercent.raw",
ascending=not gainers)`: descending percent change for gainers, ascending
for losers. -/
def pcRel (gainers : Bool) (a b : StockRow) : Prop :=
  if gainers then b.percentChange ≤ a.percentChange
  else a.percentChange ≤ b.percentChange

instance pcRel.decidable (gainers : Bool) : DecidableRel (pcRel gainers) := fun a b =>
  if hg : gainers = true then
    decidable_of_iff (b.percentChange ≤ a.percentChange) (by simp [pcRel, hg])
  else
    decidable_of_iff (a.percentChange ≤ b.percentChange) (by simp [pcRel, hg])

instance pcRel.total (gainers : Bool) : IsTotal StockRow (pcRel gainers) := by
  constructor
  intro a b
  unfold pcRel
  split
  · exact le_total b.percentChange a.percentChange
  · exact le_total a.percentChange b.percentChange

instance pcRel.trans (gainers : Bool) : IsTrans StockRow (pcRel gainers) := by
  constructor
  intro a b c
  unfold pcRel
  split
  · intro h1 h2
    exact le_trans h2 h1
  · intro h1 h2
    exact le_trans h1 h2

/-- The rows `fetch_top_stocks` selects: the screening result sorted by
percent change in the requested direction, truncated to 5
(`data_sorted.head(5)`), before the output-column projection. -/
def selectedRows (get_data : List FilterTerm → Except Unit (List StockRow))
    (region_filter : Option String) (gainers : Bool) : List StockRow :=
  match get_data (buildFilters region_filter gainers) with
  | Except.error _ => []
  | Except.ok data => ((data.insertionSort (pcRel gainers)).take 5)

/-- The record shape returned per row: columns `symbol`,
`regularMarketPrice.raw`, `regularMarketChangePercent.raw`,
`regularMarketVolume.raw`. -/
structure OutRow where
  symbol : String
  price : ℚ
  percentChange : ℚ
  volume : ℚ
  deriving DecidableEq, Repr

/-- Column projection applied by
`[["symbol", "regularMarketPrice.raw", ...]].to_dict(orient="records")`. -/
def projRow (r : StockRow) : OutRow :=
  ⟨r.symbol, r.price, r.percentChange, r.volume⟩

/-- `fetch_top_stocks(region_filter, gainers)` (main.py lines 48-76),
parameterised over the upstream screening pipeline
(`create_query`/`create_payload`/`get_data`), whose possible exception is
the `Except.error` case and is degraded to the empty list. -/
def fetch_top_stocks (get_data : List FilterTerm → Except Unit (List StockRow))
    (region_filter : Option String) (gainers : Bool) : List OutRow :=
  (selectedRows get_data region_filter gainers).map projRow

/-! ## Indian index snapshots: `fetch_indian_indices` -/

/-- Python's `str.title()` on a character list: the first letter of every
alphabetic run is upper-cased, the rest lower-cased. -/
def titleChars (prevAlpha : Bool) : List Char → List Char
  | [] => []
  | c :: cs =>
    if c.isAlpha then
      (if prevAlpha then c.toLower else c.toUpper) :: titleChars true cs
    else
      c :: titleChars false cs

/-- `index_name.replace("_", " ").title()`, the display name of an index. -/
def displayName (name : String) : String :=
  String.mk (titleChars false ((name.toList.map (fun c => if c = '_' then ' ' else c))))

/-- Round-half-to-even on an integer boundary (the tie-breaking rule of
Python's builtin `round`). -/
def roundHalfEven (x : ℚ) : ℤ :=
  let f := ⌊x⌋
  let r := x - (f : ℚ)
  if r < 1 / 2 then f
  else if 1 / 2 < r then f + 1
  else if f % 2 = 0 then f else f + 1

/-- Python's `round(x, 2)`: round to two decimal places, ties to even. -/
def rnd2 (x : ℚ) : ℚ :=
  (roundHalfEven (x * 100) : ℚ) / 100

/-- One historical price bar of `ticker.history(period="2d")`: its `Close`
and `Volume` columns. -/
structure Bar where
  close : ℚ
  volume : ℤ
  deriving DecidableEq, Repr

/-- The per-index record built by `fetch_indian_indices`. -/
structure Snapshot where
  symbol : String
  name : String
  current_price : Option ℚ
  previous_close : Option ℚ
  change : Option ℚ
  change_percent : Option ℚ
  volume : Option ℤ
  status : String
  deriving DecidableEq, Repr

/-- `INDIAN_INDICES` (main.py lines 103-108), in insertion order. -/
def INDIAN_INDICES : List (String × String) :=
  [("nifty", "^NSEI"),
   ("sensex", "^BSESN"),
   ("banknifty", "^NSEBANK"),
   ("midcap_nifty", "NIFTYMIDCAP50.NS")]

/-- The all-null snapshot emitted for an index whose data is unavailable,
with the given `status` (`"no_data"` or `"error"`). -/
def nullSnapshot (index_name symbol status : String) : Snapshot :=
  { symbol := symbol
    name := displayName index_name
    current_price := none
    previous_close := none
    change := none
    change_percent := none
    volume := none
    status := status }

/-- The body of one iteration of the `fetch_indian_indices` loop
(main.py lines 140-195): `hist` is the outcome of
`ticker.history(period="2d")`, whose exception is the `Except.error`
case.  `iloc[-1]` / `iloc[-2]` are the last and second-to-last bars. -/
def mkSnapshot (index_name symbol : String) (histRes : Except Unit (List Bar)) : Snapshot :=
  match histRes with
  | Except.error _ => nullSnapshot index_name symbol "error"
  | Except.ok hist =>
    match hist.getLast? with
    | none => nullSnapshot index_name symbol "no_data"
    | some lastBar =>
      let current_price := lastBar.close
      let pcc : ℚ × ℚ × ℚ :=
        if h2 : 2 ≤ hist.length then
          let prev_close := (hist.get ⟨hist.length - 2, by omega⟩).close
          let change := current_price - prev_close
          let change_percent := if prev_close ≠ 0 then change / prev_close * 100 else 0
          (prev_close, change, change_percent)
        else
          (current_price, 0, 0)
      { symbol := symbol
        name := displayName index_name
        current_price := some (rnd2 current_price)
        previous_close := some (rnd2 pcc.1)
        change := some (rnd2 pcc.2.1)
        change_percent := some (rnd2 pcc.2.2)
        volume := some lastBar.volume
        status := "live_data" }

/-- `fetch_indian_indices()` (main.py lines 134-202), parameterised over
the per-symbol history fetch.  The Python builds a dict keyed by index
name in insertion order; the embedding returns the corresponding
association list.  The per-index `try/except` is the `Except.error` case
of `mkSnapshot`. -/
def fetch_indian_indices (fetchHist : String → Except Unit (List Bar)) :
    List (String × Snapshot) :=
  INDIAN_INDICES.map (fun ns => (ns.1, mkSnapshot ns.1 ns.2 (fetchHist ns.2)))

/-! ## News fetchers: `fetch_global_news`, `fetch_indian_news` -/

/-- `content.provider` of a news article; `displayName` may be absent. -/
structure NewsProvider where
  displayName : Option String
  deriving DecidableEq, Repr

/-- `content.canonicalUrl` of a news article; `url` may be absent. -/
structure NewsUrl where
  url : Option String
  deriving DecidableEq, Repr

/-- The `content` object of a news article; every nested field may be
absent, matching the `.get(..., default)` chains of the source. -/
structure NewsContent where
  title : Option String
  provider : Option NewsProvider
  canonicalUrl : Option NewsUrl
  deriving DecidableEq, Repr

/-- A raw news article as returned by `ticker.news`. -/
structure Article where
  content : Option NewsContent
  deriving DecidableEq, Repr

/-- Field extraction shared by both news fetchers (main.py lines 88-92 and
220-223): `content.get("title", "Title not found")`,
`content.get("provider", {}).get("displayName", "Unknown")`,
`content.get("canonicalUrl", {}).get("url", "No link")`. -/
def articleTitle (a : Article) : String :=
  ((a.content.getD ⟨none, none, none⟩).title).getD "Title not found"

def articlePublisher (a : Article) : String :=
  (((a.content.getD ⟨none, none, none⟩).provider.getD ⟨none⟩).displayName).getD "Unknown"

def articleLink (a : Article) : String :=
  (((a.content.getD ⟨none, none, none⟩).canonicalUrl.getD ⟨none⟩).url).getD "No link"

/-- A processed global news item `{title, publisher, link}`. -/
structure GlobalNewsItem where
  title : String
  publisher : String
  link : String
  deriving DecidableEq, Repr

/-- `fetch_global_news()` (main.py lines 79-99), parameterised over the
outcome of `yf.Ticker("^GSPC").news`; a raised exception (the
`Except.error` case) degrades to the empty list, otherwise all articles
are processed and the first 5 returned. -/
def fetch_global_news (news : Except Unit (List Article)) : List GlobalNewsItem :=
  match news with
  | Except.error _ => []
  | Except.ok articles =>
    (articles.map (fun a => GlobalNewsItem.mk (articleTitle a) (articlePublisher a) (articleLink a))).take 5

/-- A processed Indian news item, which also records the symbol that
surfaced it. -/
structure NewsItem where
  symbol : String
  title : String
  publisher : String
  link : String
  deriving DecidableEq, Repr

/-- The inner `for article in news_articles` loop of `fetch_indian_news`
(main.py lines 219-232): append each article whose link is unseen, and
record the link as seen. -/
def newsInner (symbol : String) (articles : List Article)
    (acc : List NewsItem × List String) : List NewsItem × List String :=
  match articles with
  | [] => acc
  | a :: rest =>
    let link := articleLink a
    if link ∈ acc.2 then newsInner symbol rest acc
    else
      newsInner symbol rest
        (acc.1 ++ [NewsItem.mk symbol (articleTitle a) (articlePublisher a) link],
         acc.2 ++ [link])

/-- The outer `for symbol in symbols` loop of `fetch_indian_news`
(main.py lines 211-235): fetch `ticker.news[:1]` per symbol, skipping a
symbol whose fetch raises; `acc` carries `news_results` and
`seen_links`. -/
def newsLoop (newsOf : String → Except Unit (List Article)) :
    List String → List NewsItem × List String → List NewsItem × List String
  | [], acc => acc
  | s :: rest, acc =>
    match newsOf s with
    | Except.error _ => newsLoop newsOf rest acc
    | Except.ok articles => newsLoop newsOf rest (newsInner s (articles.take 1) acc)

/-- `fetch_indian_news(symbols)` (main.py lines 205-241), parameterised
over the per-symbol `ticker.news` outcome. -/
def fetch_indian_news (newsOf : String → Except Unit (List Article))
    (symbols : List String) : List NewsItem :=
  (newsLoop newsOf symbols ([], [])).1

/-- Whether a symbol's (successful) top news item resolves to link `l`:
the symbol would surface `l` when iterated. -/
def surfaces (newsOf : String → Except Unit (List Article)) (l : String) (s : String) : Bool :=
  match newsOf s with
  | Except.error _ => false
  | Except.ok articles => (articles.take 1).any (fun a => articleLink a = l)

/-! ## Form relay: `send_email`, `add_to_google_sheet`, `POST /submit-form` -/

/-- `send_email(subject, form_data)` (main.py lines 244-313).  `smtp`
models the outcome of the SMTP session (connect, STARTTLS, login, send):
its `Except.error` case is any exception raised there, caught by the
function's `try/except` and degraded to `false`.  With a working session,
the result is `true` exactly when the configured password is truthy
(non-empty); an empty password logs and returns `false`. -/
def send_email (smtp : Except Unit Unit) (password : String)
    (subject : String) (form_data : List (String × String)) : Bool :=
  match smtp with
  | Except.error _ => false
  | Except.ok _ => if password ≠ "" then true else false

/-- The destination spreadsheet: its rows, row 1 first. -/
structure Sheet where
  rows : List (List String)
  deriving DecidableEq, Repr

/-- `sheet.get_all_records()`: the data rows under the header row
(empty for an empty or header-only sheet). -/
def dataRecords (s : Sheet) : List (List String) :=
  s.rows.drop 1

/-- `add_to_google_sheet(form_data)` (main.py lines 316-361) in its
credentialed path selection: `configured` is whether the service-account
file is configured and present; `sheet.insert_row(r, 1)` prepends,
`sheet.delete_rows(2)` erases the second row, `sheet.append_row(r)`
appends.  Returns the function's boolean result and the updated sheet. -/
def add_to_google_sheet (configured : Bool) (form_data : List (String × String))
    (sheet : Sheet) : Bool × Sheet :=
  if configured = false then (false, sheet)
  else
    let existing_records := dataRecords sheet
    if existing_records.length = 0 then
      let headers := form_data.map Prod.fst
      let inserted : Sheet := ⟨headers :: sheet.rows⟩
      let row_data := headers.map (fun h => ((form_data.lookup h).getD ""))
      (true, ⟨inserted.rows ++ [row_data]⟩)
    else
      let headers0 := sheet.rows.headD []
      let new_fields := (form_data.map Prod.fst).filter (fun k => headers0.contains k = false)
      let hs : List String × Sheet :=
        if new_fields ≠ [] then
          let extended := headers0 ++ new_fields
          (extended, ⟨((extended :: sheet.rows).eraseIdx 1)⟩)
        else (headers0, sheet)
      let row_data := hs.1.map (fun h => ((form_data.lookup h).getD ""))
      (true, ⟨hs.2.rows ++ [row_data]⟩)

/-- Python-dict key assignment `d[k] = v` on an ordered association list:
an existing key keeps its position and gets the new value, a new key is
appended at the end. -/
def setKey : List (String × String) → String → String → List (String × String)
  | [], k, v => [(k, v)]
  | p :: d, k, v => if p.1 = k then (k, v) :: d else p :: setKey d k v

/-- The `for key, value in form.items()` loop of `submit_form`
(main.py lines 433-435): each value is normalised to `"Not provided"`
when falsy (empty). -/
def toFormData (form : List (String × String)) : List (String × String) :=
  form.foldl (fun d kv => setKey d kv.1 (if kv.2 = "" then "Not provided" else kv.2)) []

/-- The JSON object returned by `POST /submit-form`. -/
structure SubmitResponse where
  success : Bool
  message : String
  email_sent : Bool
  timestamp : String
  data : List (String × String)
  deriving DecidableEq, Repr

/-- The keys of the response dict literal of `submit_form`
(main.py lines 450-457); the `"sheet_updated"` entry is commented out in
the source. -/
def submitResponseKeys : List String :=
  ["success", "message", "email_sent", "timestamp", "data"]

/-- `POST /submit-form` (main.py lines 425-461), parameterised over the
parsed form fields in arrival order, the two `datetime.now()` timestamps
(`ts` stamped into the data, `ts2` placed in the response), the
configured email password and the SMTP session outcome.  The handler
threads the spreadsheet state unchanged: the `add_to_google_sheet` call
site is commented out (main.py line 448). -/
def submit_form (form : List (String × String)) (ts ts2 : String)
    (password : String) (smtp : Except Unit Unit) (sheet : Sheet) :
    SubmitResponse × Sheet :=
  let form_data := setKey (toFormData form) "timestamp" ts
  let subject := (form_data.lookup "subject").getD "Aadhar Capital Website Enquiry"
  let email_sent := send_email smtp password subject form_data
  ({ success := true
     message := "Form submitted successfully"
     email_sent := email_sent
     timestamp := ts2
     data := form_data }, sheet)

/-! ## Concrete upstream behaviours used to exercise the theorems -/

/-- An honest screening endpoint over a fixed universe of rows: it
returns exactly the rows matching the query. -/
def screenerOf (univ : List StockRow) : List FilterTerm → Except Unit (List StockRow) :=
  fun fs => Except.ok (univ.filter (fun r => evalFilters fs r))

/-- A row listed in region `"us"` that passes every threshold of a
region-filtered query. -/
def cexRow : StockRow :=
  { symbol := "ACME"
    price := 11
    percentChange := 4
    volume := 2000
    marketCap := 2000000000
    region := "us" }

/-- A row listed in region `"in"` that passes every threshold of a
region-filtered query. -/
def rowIn : StockRow :=
  { symbol := "INFY"
    price := 12
    percentChange := 7
    volume := 3000
    marketCap := 3000000000
    region := "in" }

/-- A history fetch where nifty's request raises, sensex's returns no
bars, and the remaining indices return one bar. -/
def histMixed : String → Except Unit (List Bar) := fun s =>
  if s = "^NSEI" then Except.error ()
  else if s = "^BSESN" then Except.ok []
  else Except.ok [⟨100, 5⟩]

/-- A history fetch returning exactly two bars, previous close `3`,
current close `4`, for every symbol. -/
def histTwoBars : String → Except Unit (List Bar) := fun _ =>
  Except.ok [⟨3, 7⟩, ⟨4, 9⟩]

/-- A history fetch returning two bars whose previous close is `0`. -/
def histZeroPrev : String → Except Unit (List Bar) := fun _ =>
  Except.ok [⟨0, 7⟩, ⟨4, 9⟩]

/-- The nifty snapshot produced from the two bars of `histTwoBars`. -/
def niftyTwoBarsSnapshot : Snapshot :=
  mkSnapshot "nifty" "^NSEI" (Except.ok [⟨3, 7⟩, ⟨4, 9⟩])

/-- An article whose content resolves to the given title and link. -/
def mkArticle (t l : String) : Article :=
  ⟨some ⟨some t, some ⟨some "PTI"⟩, some ⟨some l⟩⟩⟩

/-- A news source where two symbols share one link, one symbol raises,
and one symbol has its own link. -/
def newsShared : String → Except Unit (List Article) := fun s =>
  if s = "RELIANCE.NS" then Except.ok [mkArticle "t1" "L1"]
  else if s = "TCS.NS" then Except.ok [mkArticle "t2" "L1"]
  else if s = "INFY.NS" then Except.ok [mkArticle "t3" "L2"]
  else Except.error ()

/-! ## Helper lemmas: the screening query -/

theorem evalFilter_gt_pc (x : ℚ) (r : StockRow) :
    evalFilter ⟨"gt", "percentchange", FVal.num x⟩ r = decide (x < r.percentChange) := rfl

theorem evalFilter_lt_pc (x : ℚ) (r : StockRow) :
    evalFilter ⟨"lt", "percentchange", FVal.num x⟩ r = decide (r.percentChange < x) := rfl

theorem evalFilter_gt_cap (x : ℚ) (r : StockRow) :
    evalFilter ⟨"gt", "intradaymarketcap", FVal.num x⟩ r = decide (x < r.marketCap) := rfl

theorem evalFilter_gt_price (x : ℚ) (r : StockRow) :
    evalFilter ⟨"gt", "intradayprice", FVal.num x⟩ r = decide (x < r.price) := rfl

theorem evalFilter_gt_vol (x : ℚ) (r : StockRow) :
    evalFilter ⟨"gt", "dayvolume", FVal.num x⟩ r = decide (x < r.volume) := rfl

theorem evalFilter_eq_region (s : String) (r : StockRow) :
    evalFilter ⟨"eq", "region", FVal.str s⟩ r = decide (r.region = s) := rfl

/-- Every row selected by `fetch_top_stocks` came from the screening
result. -/
theorem mem_of_mem_selectedRows {get_data : List FilterTerm → Except Unit (List StockRow)}
    {rf : Option String} {g : Bool} {r : StockRow}
    (h : r ∈ selectedRows get_data rf g) :
    ∃ data, get_data (buildFilters rf g) = Except.ok data ∧ r ∈ data := by
  unfold selectedRows at h
  cases hgd : get_data (buildFilters rf g) with
  | error e =>
    rw [hgd] at h
    simp at h
  | ok data =>
    rw [hgd] at h
    refine ⟨data, rfl, ?_⟩
    have hmem : r ∈ data.insertionSort (pcRel g) :=
      (List.take_sublist 5 (data.insertionSort (pcRel g))).mem h
    exact (List.perm_insertionSort (pcRel g) data).subset hmem

/-- A row passing all constructed filters satisfies each configured
threshold (and the region constraint when a non-empty region filter is
set). -/
theorem evalFilters_decode {rf : Option String} {g : Bool} {r : StockRow}
    (h : evalFilters (buildFilters rf g) r = true) :
    (if g = true then 3 < r.percentChange else r.percentChange < -(5 / 2 : ℚ)) ∧
    (if rf = none then (2000000000 : ℚ) < r.marketCap else (1000000000 : ℚ) < r.marketCap) ∧
    (if rf = none then (5 : ℚ) < r.price else (10 : ℚ) < r.price) ∧
    (1000 : ℚ) < r.volume ∧
    (∀ rg, rf = some rg → rg ≠ "" → r.region = rg) := by
  rcases rf with _ | s <;> cases g
  · have hbf : buildFilters none false =
        [⟨"lt", "percentchange", FVal.num (-(5 / 2 : ℚ))⟩,
         ⟨"gt", "intradaymarketcap", FVal.num 2000000000⟩,
         ⟨"gt", "intradayprice", FVal.num 5⟩,
         ⟨"gt", "dayvolume", FVal.num 1000⟩] := rfl
    rw [hbf] at h
    simp only [evalFilters, List.all_cons, List.all_nil, Bool.and_true,
      Bool.and_eq_true] at h
    obtain ⟨h1, h2, h3, h4⟩ := h
    rw [evalFilter_lt_pc, decide_eq_true_eq] at h1
    rw [evalFilter_gt_cap, decide_eq_true_eq] at h2
    rw [evalFilter_gt_price, decide_eq_true_eq] at h3
    rw [evalFilter_gt_vol, decide_eq_true_eq] at h4
    exact ⟨by simpa using h1, by simpa using h2, by simpa using h3, h4,
      by intro rg hrg; cases hrg⟩
  · have hbf : buildFilters none true =
        [⟨"gt", "percentchange", FVal.num 3⟩,
         ⟨"gt", "intradaymarketcap", FVal.num 2000000000⟩,
         ⟨"gt", "intradayprice", FVal.num 5⟩,
         ⟨"gt", "dayvolume", FVal.num 1000⟩] := rfl
    rw [hbf] at h
    simp only [evalFilters, List.all_cons, List.all_nil, Bool.and_true,
      Bool.and_eq_true] at h
    obtain ⟨h1, h2, h3, h4⟩ := h
    rw [evalFilter_gt_pc, decide_eq_true_eq] at h1
    rw [evalFilter_gt_cap, decide_eq_true_eq] at h2
    rw [evalFilter_gt_price, decide_eq_true_eq] at h3
    rw [evalFilter_gt_vol, decide_eq_true_eq] at h4
    exact ⟨by simpa using h1, by simpa using h2, by simpa using h3, h4,
      by intro rg hrg; cases hrg⟩
  · by_cases hs : s = ""
    · subst hs
      have hbf : buildFilters (some "") false =
          [⟨"lt", "percentchange", FVal.num (-(5 / 2 : ℚ))⟩,
           ⟨"gt", "intradaymarketcap", FVal.num 1000000000⟩,
           ⟨"gt", "intradayprice", FVal.num 10⟩,
           ⟨"gt", "dayvolume", FVal.num 1000⟩] := rfl
      rw [hbf] at h
      simp only [evalFilters, List.all_cons, List.all_nil, Bool.and_true,
        Bool.and_eq_true] at h
      obtain ⟨h1, h2, h3, h4⟩ := h
      rw [evalFilter_lt_pc, decide_eq_true_eq] at h1
      rw [evalFilter_gt_cap, decide_eq_true_eq] at h2
      rw [evalFilter_gt_price, decide_eq_true_eq] at h3
      rw [evalFilter_gt_vol, decide_eq_true_eq] at h4
      refine ⟨by simpa using h1, by simpa using h2, by simpa using h3, h4, ?_⟩
      intro rg hrg hne
      cases hrg
      exact absurd rfl hne
    · have hbf : buildFilters (some s) false =
          [⟨"lt", "percentchange", FVal.num (-(5 / 2 : ℚ))⟩,
           ⟨"gt", "intradaymarketcap", FVal.num 1000000000⟩,
           ⟨"gt", "intradayprice", FVal.num 10⟩,
           ⟨"gt", "dayvolume", FVal.num 1000⟩,
           ⟨"eq", "region", FVal.str s⟩] := by
        simp [buildFilters, hs]
      rw [hbf] at h
      simp only [evalFilters, List.all_cons, List.all_nil, Bool.and_true,
        Bool.and_eq_true] at h
      obtain ⟨h1, h2, h3, h4, h5⟩ := h
      rw [evalFilter_lt_pc, decide_eq_true_eq] at h1
      rw [evalFilter_gt_cap, decide_eq_true_eq] at h2
      rw [evalFilter_gt_price, decide_eq_true_eq] at h3
      rw [evalFilter_gt_vol, decide_eq_true_eq] at h4
      rw [evalFilter_eq_region, decide_eq_true_eq] at h5
      refine ⟨by simpa using h1, by simpa using h2, by simpa using h3, h4, ?_⟩
      intro rg hrg hne
      cases hrg
      exact h5
  · by_cases hs : s = ""
    · subst hs
      have hbf : buildFilters (some "") true =
          [⟨"gt", "percentchange", FVal.num 3⟩,
           ⟨"gt", "intradaymarketcap", FVal.num 1000000000⟩,
           ⟨"gt", "intradayprice", FVal.num 10⟩,
           ⟨"gt", "dayvolume", FVal.num 1000⟩] := rfl
      rw [hbf] at h
      simp only [evalFilters, List.all_cons, List.all_nil, Bool.and_true,
        Bool.and_eq_true] at h
      obtain ⟨h1, h2, h3, h4⟩ := h
      rw [evalFilter_gt_pc, decide_eq_true_eq] at h1
      rw [evalFilter_gt_cap, decide_eq_true_eq] at h2
      rw [evalFilter_gt_price, decide_eq_true_eq] at h3
      rw [evalFilter_gt_vol, decide_eq_true_eq] at h4
      refine ⟨by simpa using h1, by simpa using h2, by simpa using h3, h4, ?_⟩
      intro rg hrg hne
      cases hrg
      exact absurd rfl hne
    · have hbf : buildFilters (some s) true =
          [⟨"gt", "percentchange", FVal.num 3⟩,
           ⟨"gt", "intradaymarketcap", FVal.num 1000000000⟩,
           ⟨"gt", "intradayprice", FVal.num 10⟩,
           ⟨"gt", "dayvolume", FVal.num 1000⟩,
           ⟨"eq", "region", FVal.str s⟩] := by
        simp [buildFilters, hs]
      rw [hbf] at h
      simp only [evalFilters, List.all_cons, List.all_nil, Bool.and_true,
        Bool.and_eq_true] at h
      obtain ⟨h1, h2, h3, h4, h5⟩ := h
      rw [evalFilter_gt_pc, decide_eq_true_eq] at h1
      rw [evalFilter_gt_cap, decide_eq_true_eq] at h2
      rw [evalFilter_gt_price, decide_eq_true_eq] at h3
      rw [evalFilter_gt_vol, decide_eq_true_eq] at h4
      rw [evalFilter_eq_region, decide_eq_true_eq] at h5
      refine ⟨by simpa using h1, by simpa using h2, by simpa using h3, h4, ?_⟩
      intro rg hrg hne
      cases hrg
      exact h5

/-- An honest screening endpoint over a universe only returns matching
rows. -/
theorem screenerOf_honest (univ : List StockRow) :
    ∀ fs rows, screenerOf univ fs = Except.ok rows → ∀ r ∈ rows, evalFilters fs r = true := by
  intro fs rows h r hr
  unfold screenerOf at h
  injection h with h
  subst h
  exact (List.mem_filter.mp hr).2

/-- The selected rows are sorted by percent change in the requested
direction. -/
theorem selectedRows_sorted (get_data : List FilterTerm → Except Unit (List StockRow))
    (rf : Option String) (g : Bool) :
    List.Sorted (pcRel g) (selectedRows get_data rf g) := by
  unfold selectedRows
  cases get_data (buildFilters rf g) with
  | error e => simp
  | ok data =>
    exact List.Pairwise.sublist (List.take_sublist 5 _)
      (List.sorted_insertionSort (pcRel g) data)

/-! ## Claim C1 -/

/-- C1 (amended): for any query against an honest screening endpoint,
`fetch_top_stocks` returns the column projection of at most 5 rows,
sorted by percent change (descending for gainers, ascending for losers),
each satisfying the configured percent-change, market-cap, price and
volume thresholds; the region of every selected row equals the region
filter whenever a NON-EMPTY region filter is set (with the empty-string
filter the looser thresholds apply but no region predicate is added). -/
theorem fetch_top_stocks_spec (get_data : List FilterTerm → Except Unit (List StockRow))
    (rf : Option String) (g : Bool)
    (honest : ∀ fs rows, get_data fs = Except.ok rows → ∀ r ∈ rows, evalFilters fs r = true) :
    fetch_top_stocks get_data rf g = (selectedRows get_data rf g).map projRow ∧
    (fetch_top_stocks get_data rf g).length ≤ 5 ∧
    List.Sorted (pcRel g) (selectedRows get_data rf g) ∧
    ∀ r ∈ selectedRows get_data rf g,
      (if g = true then 3 < r.percentChange else r.percentChange < -(5 / 2 : ℚ)) ∧
      (if rf = none then (2000000000 : ℚ) < r.marketCap else (1000000000 : ℚ) < r.marketCap) ∧
      (if rf = none then (5 : ℚ) < r.price else (10 : ℚ) < r.price) ∧
      (1000 : ℚ) < r.volume ∧
      (∀ rg, rf = some rg → rg ≠ "" → r.region = rg) := by
  refine ⟨rfl, ?_, selectedRows_sorted get_data rf g, ?_⟩
  · unfold fetch_top_stocks selectedRows
    cases get_data (buildFilters rf g) with
    | error e => simp
    | ok data =>
      simp only [List.length_map, List.length_take]
      omega
  · intro r hr
    obtain ⟨data, hok, hmem⟩ := mem_of_mem_selectedRows hr
    exact evalFilters_decode (honest _ data hok r hmem)

/-- Witness for C1: a region-filtered gainers query against an honest
one-row universe. -/
theorem fetch_top_stocks_spec_witness :
    fetch_top_stocks (screenerOf [rowIn]) (some "in") true
        = (selectedRows (screenerOf [rowIn]) (some "in") true).map projRow ∧
    (fetch_top_stocks (screenerOf [rowIn]) (some "in") true).length ≤ 5 ∧
    List.Sorted (pcRel true) (selectedRows (screenerOf [rowIn]) (some "in") true) ∧
    ∀ r ∈ selectedRows (screenerOf [rowIn]) (some "in") true,
      (if true = true then 3 < r.percentChange else r.percentChange < -(5 / 2 : ℚ)) ∧
      (if (some "in" : Option String) = none then (2000000000 : ℚ) < r.marketCap
        else (1000000000 : ℚ) < r.marketCap) ∧
      (if (some "in" : Option String) = none then (5 : ℚ) < r.price else (10 : ℚ) < r.price) ∧
      (1000 : ℚ) < r.volume ∧
      (∀ rg, (some "in" : Option String) = some rg → rg ≠ "" → r.region = rg) :=
  fetch_top_stocks_spec (screenerOf [rowIn]) (some "in") true (screenerOf_honest [rowIn])

/-- Counterexample to C1 as stated: with the empty-string region filter
(`region_filter = ""`), an honest screener returns a row whose region is
`"us"`, not the filter value — the `if region_filter:` truthiness test
skips the region-equality term while the thresholds still use the
region-filtered values. -/
theorem fetch_top_stocks_region_cex :
    selectedRows (screenerOf [cexRow]) (some "") true = [cexRow] ∧
    fetch_top_stocks (screenerOf [cexRow]) (some "") true = [projRow cexRow] ∧
    cexRow.region ≠ "" ∧
    ¬ (2000000000 : ℚ) < cexRow.marketCap := by
  have hsel : selectedRows (screenerOf [cexRow]) (some "") true = [cexRow] := by
    unfold selectedRows screenerOf
    have hf : evalFilters (buildFilters (some "") true) cexRow = true := by
      have hbf : buildFilters (some "") true =
          [⟨"gt", "percentchange", FVal.num 3⟩,
           ⟨"gt", "intradaymarketcap", FVal.num 1000000000⟩,
           ⟨"gt", "intradayprice", FVal.num 10⟩,
           ⟨"gt", "dayvolume", FVal.num 1000⟩] := rfl
      rw [hbf]
      simp only [evalFilters, List.all_cons, List.all_nil, Bool.and_true,
        evalFilter_gt_pc, evalFilter_gt_cap, evalFilter_gt_price, evalFilter_gt_vol,
        Bool.and_eq_true, decide_eq_true_eq]
      refine ⟨?_, ?_, ?_, ?_⟩ <;> norm_num [cexRow]
    simp [hf]
  refine ⟨hsel, ?_, by decide, by norm_num [cexRow]⟩
  unfold fetch_top_stocks
  rw [hsel]
  rfl

/-! ## Helper lemmas: index snapshots and rounding -/

theorem mkSnapshot_symbol (n s : String) (res : Except Unit (List Bar)) :
    (mkSnapshot n s res).symbol = s := by
  unfold mkSnapshot
  split
  · rfl
  · split
    · rfl
    · rfl

/-- Evaluation of `mkSnapshot` on a history of exactly two bars. -/
theorem mkSnapshot_two_bars (n s : String) (b1 b2 : Bar) :
    mkSnapshot n s (Except.ok [b1, b2]) =
      { symbol := s
        name := displayName n
        current_price := some (rnd2 b2.close)
        previous_close := some (rnd2 b1.close)
        change := some (rnd2 (b2.close - b1.close))
        change_percent := some (rnd2 (if b1.close ≠ 0
            then (b2.close - b1.close) / b1.close * 100 else 0))
        volume := some b2.volume
        status := "live_data" } := rfl

/-- Evaluation of `mkSnapshot` on any history of at least two bars. -/
theorem mkSnapshot_live (n s : String) (hist : List Bar) (h2 : 2 ≤ hist.length)
    (lastBar : Bar) (hl : hist.getLast? = some lastBar) :
    mkSnapshot n s (Except.ok hist) =
      { symbol := s
        name := displayName n
        current_price := some (rnd2 lastBar.close)
        previous_close := some (rnd2 (hist.get ⟨hist.length - 2, by omega⟩).close)
        change := some (rnd2 (lastBar.close - (hist.get ⟨hist.length - 2, by omega⟩).close))
        change_percent := some (rnd2 (if (hist.get ⟨hist.length - 2, by omega⟩).close ≠ 0
            then (lastBar.close - (hist.get ⟨hist.length - 2, by omega⟩).close)
              / (hist.get ⟨hist.length - 2, by omega⟩).close * 100
            else 0))
        volume := some lastBar.volume
        status := "live_data" } := by
  simp only [mkSnapshot]
  rw [hl]
  simp only [dif_pos h2]

theorem rnd2_zero : rnd2 0 = 0 := by
  norm_num [rnd2, roundHalfEven]

/-- Value of `rnd2` when the scaled argument sits in the lower half of an
integer step. -/
theorem rnd2_eq_of_lt_half (x : ℚ) (f : ℤ) (hle : (f : ℚ) ≤ x * 100)
    (hlt : x * 100 < (f : ℚ) + 1 / 2) :
    rnd2 x = (f : ℚ) / 100 := by
  have hfl : ⌊x * 100⌋ = f := Int.floor_eq_iff.mpr ⟨hle, by linarith⟩
  have hr : x * 100 - (f : ℚ) < 1 / 2 := by linarith
  unfold rnd2 roundHalfEven
  simp only [hfl]
  rw [if_pos hr]

/-! ## Claim C2 -/

/-- C2: `fetch_indian_indices` always returns exactly one entry per
configured index, in order; an index whose request raises carries the
all-null snapshot with status `"error"`, an index whose request returns 0
bars carries the all-null snapshot with status `"no_data"`, whatever the
other indices' outcomes. -/
theorem fetch_indian_indices_entries (fetchHist : String → Except Unit (List Bar)) :
    (fetch_indian_indices fetchHist).map Prod.fst
        = ["nifty", "sensex", "banknifty", "midcap_nifty"] ∧
    (∀ ns ∈ INDIAN_INDICES, fetchHist ns.2 = Except.error () →
      (ns.1, nullSnapshot ns.1 ns.2 "error") ∈ fetch_indian_indices fetchHist) ∧
    (∀ ns ∈ INDIAN_INDICES, fetchHist ns.2 = Except.ok [] →
      (ns.1, nullSnapshot ns.1 ns.2 "no_data") ∈ fetch_indian_indices fetchHist) := by
  refine ⟨rfl, ?_, ?_⟩
  · intro ns hns h
    exact List.mem_map.mpr ⟨ns, hns, by rw [h]; rfl⟩
  · intro ns hns h
    exact List.mem_map.mpr ⟨ns, hns, by rw [h]; rfl⟩

/-- Witness for C2: with nifty's request raising and sensex's returning 0
bars, both null-filled entries are present. -/
theorem fetch_indian_indices_entries_witness :
    ("nifty", nullSnapshot "nifty" "^NSEI" "error") ∈ fetch_indian_indices histMixed ∧
    ("sensex", nullSnapshot "sensex" "^BSESN" "no_data") ∈ fetch_indian_indices histMixed := by
  have h := fetch_indian_indices_entries histMixed
  exact ⟨h.2.1 ("nifty", "^NSEI") (by simp [INDIAN_INDICES]) rfl,
         h.2.2 ("sensex", "^BSESN") (by simp [INDIAN_INDICES]) rfl⟩

/-! ## Claim C3 -/

/-- C3 (amended): given exactly 2 bars with previous close `P ≠ 0` and
current close `C`, the index's snapshot has `change = round2 (C − P)`,
`changePercent = round2 (100·(C−P)/P)` (two-decimal rounding, ties to
even, as applied by `round(float(x), 2)`) and status `"live_data"`. -/
theorem fetch_indian_indices_two_bars (fetchHist : String → Except Unit (List Bar))
    (ns : String × String) (hns : ns ∈ INDIAN_INDICES) (P C : ℚ) (vP vC : ℤ)
    (hfetch : fetchHist ns.2 = Except.ok [⟨P, vP⟩, ⟨C, vC⟩]) (hP : P ≠ 0) :
    ∃ s, (ns.1, s) ∈ fetch_indian_indices fetchHist ∧
      s.change = some (rnd2 (C - P)) ∧
      s.change_percent = some (rnd2 (100 * (C - P) / P)) ∧
      s.status = "live_data" := by
  refine ⟨mkSnapshot ns.1 ns.2 (fetchHist ns.2),
    List.mem_map.mpr ⟨ns, hns, rfl⟩, ?_, ?_, ?_⟩ <;>
    rw [hfetch, mkSnapshot_two_bars]
  show some (rnd2 (if P ≠ 0 then (C - P) / P * 100 else 0))
      = some (rnd2 (100 * (C - P) / P))
  rw [if_pos hP, show (C - P) / P * 100 = 100 * (C - P) / P from by ring]

/-- Witness for C3's amended theorem: two bars `3, 4` for nifty. -/
theorem fetch_indian_indices_two_bars_witness :
    ∃ s, ("nifty", s) ∈ fetch_indian_indices histTwoBars ∧
      s.change = some (rnd2 ((4 : ℚ) - 3)) ∧
      s.change_percent = some (rnd2 (100 * ((4 : ℚ) - 3) / 3)) ∧
      s.status = "live_data" :=
  fetch_indian_indices_two_bars histTwoBars ("nifty", "^NSEI")
    (by simp [INDIAN_INDICES]) 3 4 7 9 rfl (by norm_num)

/-- Counterexample to C3 as stated: with bars `3, 4`, the stored
`change_percent` is the rounded `33.33`, not the exact `100·(4−3)/3`. -/
theorem fetch_indian_indices_two_bars_cex :
    ("nifty", niftyTwoBarsSnapshot) ∈ fetch_indian_indices histTwoBars ∧
    niftyTwoBarsSnapshot.change_percent = some (3333 / 100 : ℚ) ∧
    (3333 / 100 : ℚ) ≠ 100 * ((4 : ℚ) - 3) / 3 ∧
    niftyTwoBarsSnapshot.status = "live_data" := by
  refine ⟨List.mem_map.mpr ⟨("nifty", "^NSEI"), by simp [INDIAN_INDICES], rfl⟩, ?_, ?_, rfl⟩
  · have h1 : niftyTwoBarsSnapshot.change_percent
        = some (rnd2 (if (3 : ℚ) ≠ 0 then ((4 : ℚ) - 3) / 3 * 100 else 0)) := by
      rw [show niftyTwoBarsSnapshot
          = mkSnapshot "nifty" "^NSEI" (Except.ok [⟨3, 7⟩, ⟨4, 9⟩]) from rfl,
        mkSnapshot_two_bars]
    rw [h1, if_pos (by norm_num : (3 : ℚ) ≠ 0),
      show ((4 : ℚ) - 3) / 3 * 100 = 100 / 3 from by norm_num,
      rnd2_eq_of_lt_half (100 / 3) 3333 (by norm_num) (by norm_num)]
    norm_num
  · norm_num

/-! ## Claim C4 -/

/-- C4: given at least 2 bars whose second-to-last close is exactly 0,
the index's snapshot has `changePercent = 0` and status `"live_data"`:
the guarded division is skipped, so no division-by-zero fault occurs. -/
theorem fetch_indian_indices_zero_prev (fetchHist : String → Except Unit (List Bar))
    (ns : String × String) (hns : ns ∈ INDIAN_INDICES) (hist : List Bar)
    (hfetch : fetchHist ns.2 = Except.ok hist) (h2 : 2 ≤ hist.length)
    (hprev : (hist.get ⟨hist.length - 2, by omega⟩).close = 0) :
    ∃ s, (ns.1, s) ∈ fetch_indian_indices fetchHist ∧
      s.change_percent = some 0 ∧ s.status = "live_data" := by
  obtain ⟨lastBar, hl⟩ : ∃ b, hist.getLast? = some b := by
    cases hlq : hist.getLast? with
    | none =>
      rw [List.getLast?_eq_none_iff.mp hlq] at h2
      simp at h2
    | some b => exact ⟨b, rfl⟩
  refine ⟨mkSnapshot ns.1 ns.2 (fetchHist ns.2),
    List.mem_map.mpr ⟨ns, hns, rfl⟩, ?_, ?_⟩ <;>
    rw [hfetch, mkSnapshot_live ns.1 ns.2 hist h2 lastBar hl]
  show some (rnd2 (if (hist.get ⟨hist.length - 2, by omega⟩).close ≠ 0
      then (lastBar.close - (hist.get ⟨hist.length - 2, by omega⟩).close)
        / (hist.get ⟨hist.length - 2, by omega⟩).close * 100
      else 0)) = some 0
  rw [if_neg (fun hne => hne hprev), rnd2_zero]

/-- Witness for C4: bars `0, 4`. -/
theorem fetch_indian_indices_zero_prev_witness :
    ∃ s, ("nifty", s) ∈ fetch_indian_indices histZeroPrev ∧
      s.change_percent = some 0 ∧ s.status = "live_data" :=
  fetch_indian_indices_zero_prev histZeroPrev ("nifty", "^NSEI")
    (by simp [INDIAN_INDICES]) [⟨0, 7⟩, ⟨4, 9⟩] rfl (by norm_num) rfl

/-! ## Helper lemmas: the Indian news loop -/

theorem newsLoop_nil (newsOf : String → Except Unit (List Article))
    (acc : List NewsItem × List String) :
    newsLoop newsOf [] acc = acc := rfl

theorem newsLoop_cons_error (newsOf : String → Except Unit (List Article))
    (s : String) (rest : List String) (acc : List NewsItem × List String)
    (hn : newsOf s = Except.error ()) :
    newsLoop newsOf (s :: rest) acc = newsLoop newsOf rest acc := by
  simp only [newsLoop, hn]

theorem newsLoop_cons_ok (newsOf : String → Except Unit (List Article))
    (s : String) (rest : List String) (acc : List NewsItem × List String)
    (articles : List Article) (hn : newsOf s = Except.ok articles) :
    newsLoop newsOf (s :: rest) acc
      = newsLoop newsOf rest (newsInner s (articles.take 1) acc) := by
  simp only [newsLoop, hn]

theorem newsInner_single (s : String) (a : Article) (results : List NewsItem)
    (seen : List String) :
    newsInner s [a] (results, seen)
      = if articleLink a ∈ seen then (results, seen)
        else (results ++ [NewsItem.mk s (articleTitle a) (articlePublisher a) (articleLink a)],
          seen ++ [articleLink a]) := by
  simp only [newsInner]

/-- Invariant of the `fetch_indian_news` loop: `seen_links` tracks exactly
the links of `news_results`, the accumulated links stay pairwise distinct,
every produced entry either was already accumulated or carries the first
remaining symbol that surfaces its (previously unseen) link, and every
link surfaced by a remaining symbol ends up in the output. -/
theorem newsLoop_invariant (newsOf : String → Except Unit (List Article)) :
    ∀ (syms : List String) (results : List NewsItem) (seen : List String),
      seen = results.map NewsItem.link → seen.Nodup →
      ((newsLoop newsOf syms (results, seen)).2
          = (newsLoop newsOf syms (results, seen)).1.map NewsItem.link) ∧
      ((newsLoop newsOf syms (results, seen)).1.map NewsItem.link).Nodup ∧
      (∀ e ∈ (newsLoop newsOf syms (results, seen)).1,
        e ∈ results ∨ (e.link ∉ seen ∧ syms.find? (surfaces newsOf e.link) = some e.symbol)) ∧
      (∀ l, (l ∈ seen ∨ ∃ s ∈ syms, surfaces newsOf l s = true) →
        l ∈ (newsLoop newsOf syms (results, seen)).1.map NewsItem.link) := by
  intro syms
  induction syms with
  | nil =>
    intro results seen hseen hnd
    refine ⟨by simpa using hseen, by rw [newsLoop_nil]; rw [← hseen]; exact hnd, ?_, ?_⟩
    · intro e he
      exact Or.inl (by simpa using he)
    · intro l hl
      rcases hl with hl | ⟨s, hs, _⟩
      · rw [newsLoop_nil]
        rw [hseen] at hl
        exact hl
      · exact absurd hs (List.not_mem_nil s)
  | cons s rest ih =>
    intro results seen hseen hnd
    cases hn : newsOf s with
    | error e =>
      cases e
      have hsurf : ∀ l, surfaces newsOf l s = false := by
        intro l
        unfold surfaces
        rw [hn]
      rw [newsLoop_cons_error newsOf s rest _ hn]
      obtain ⟨g1, g2, g3, g4⟩ := ih results seen hseen hnd
      refine ⟨g1, g2, ?_, ?_⟩
      · intro e he
        rcases g3 e he with h | ⟨h1, h2⟩
        · exact Or.inl h
        · refine Or.inr ⟨h1, ?_⟩
          rw [List.find?_cons, hsurf e.link]
          exact h2
      · intro l hl
        refine g4 l ?_
        rcases hl with hl | ⟨s0, hs0, hsf⟩
        · exact Or.inl hl
        · rcases List.mem_cons.mp hs0 with rfl | hs0
          · rw [hsurf l] at hsf
            cases hsf
          · exact Or.inr ⟨s0, hs0, hsf⟩
    | ok articles =>
      cases articles with
      | nil =>
        have hsurf : ∀ l, surfaces newsOf l s = false := by
          intro l
          unfold surfaces
          rw [hn]
          rfl
        rw [newsLoop_cons_ok newsOf s rest _ [] hn]
        obtain ⟨g1, g2, g3, g4⟩ := ih results seen hseen hnd
        refine ⟨g1, g2, ?_, ?_⟩
        · intro e he
          rcases g3 e he with h | ⟨h1, h2⟩
          · exact Or.inl h
          · refine Or.inr ⟨h1, ?_⟩
            rw [List.find?_cons, hsurf e.link]
            exact h2
        · intro l hl
          refine g4 l ?_
          rcases hl with hl | ⟨s0, hs0, hsf⟩
          · exact Or.inl hl
          · rcases List.mem_cons.mp hs0 with rfl | hs0
            · rw [hsurf l] at hsf
              cases hsf
            · exact Or.inr ⟨s0, hs0, hsf⟩
      | cons a as =>
        have hsurf : ∀ l, surfaces newsOf l s = decide (articleLink a = l) := by
          intro l
          unfold surfaces
          rw [hn]
          simp [List.take]
        have htake : (a :: as).take 1 = [a] := by simp [List.take]
        rw [newsLoop_cons_ok newsOf s rest _ (a :: as) hn, htake, newsInner_single]
        by_cases hmem : articleLink a ∈ seen
        · rw [if_pos hmem]
          obtain ⟨g1, g2, g3, g4⟩ := ih results seen hseen hnd
          refine ⟨g1, g2, ?_, ?_⟩
          · intro e he
            rcases g3 e he with h | ⟨h1, h2⟩
            · exact Or.inl h
            · refine Or.inr ⟨h1, ?_⟩
              rw [List.find?_cons, hsurf e.link]
              have : articleLink a ≠ e.link := fun hEq => h1 (hEq ▸ hmem)
              rw [decide_eq_false this]
              exact h2
          · intro l hl
            refine g4 l ?_
            rcases hl with hl | ⟨s0, hs0, hsf⟩
            · exact Or.inl hl
            · rcases List.mem_cons.mp hs0 with rfl | hs0
              · rw [hsurf l, decide_eq_true_eq] at hsf
                exact Or.inl (hsf ▸ hmem)
              · exact Or.inr ⟨s0, hs0, hsf⟩
        · rw [if_neg hmem]
          have hseen2 : seen ++ [articleLink a]
              = (results ++ [NewsItem.mk s (articleTitle a) (articlePublisher a)
                  (articleLink a)]).map NewsItem.link := by
            rw [List.map_append, hseen]
            rfl
          have hnd2 : (seen ++ [articleLink a]).Nodup := by
            simp [List.nodup_append, hnd, hmem]
          obtain ⟨g1, g2, g3, g4⟩ := ih
            (results ++ [NewsItem.mk s (articleTitle a) (articlePublisher a) (articleLink a)])
            (seen ++ [articleLink a]) hseen2 hnd2
          refine ⟨g1, g2, ?_, ?_⟩
          · intro e he
            rcases g3 e he with h | ⟨h1, h2⟩
            · rcases List.mem_append.mp h with h | h
              · exact Or.inl h
              · have he2 : e = NewsItem.mk s (articleTitle a) (articlePublisher a)
                    (articleLink a) := by simpa using h
                subst he2
                refine Or.inr ⟨hmem, ?_⟩
                rw [List.find?_cons, hsurf]
                simp
            · have h1a : e.link ∉ seen := fun hx => h1 (List.mem_append.mpr (Or.inl hx))
              have h1b : articleLink a ≠ e.link := by
                intro hEq
                exact h1 (List.mem_append.mpr (Or.inr (by simp [hEq])))
              refine Or.inr ⟨h1a, ?_⟩
              rw [List.find?_cons, hsurf e.link, decide_eq_false h1b]
              exact h2
          · intro l hl
            refine g4 l ?_
            rcases hl with hl | ⟨s0, hs0, hsf⟩
            · exact Or.inl (List.mem_append.mpr (Or.inl hl))
            · rcases List.mem_cons.mp hs0 with rfl | hs0
              · rw [hsurf l, decide_eq_true_eq] at hsf
                exact Or.inl (List.mem_append.mpr (Or.inr (by simp [hsf])))
              · exact Or.inr ⟨s0, hs0, hsf⟩

/-! ## Claim C5 -/

/-- C5: the list returned by `fetch_indian_news` has pairwise-distinct
links; each kept entry carries the first symbol (in input iteration
order) whose successful top news item surfaced its link; every link
surfaced by some symbol does appear; and a symbol whose request raises is
skipped without affecting the rest of the iteration. -/
theorem fetch_indian_news_dedup (newsOf : String → Except Unit (List Article))
    (symbols : List String) :
    ((fetch_indian_news newsOf symbols).map NewsItem.link).Nodup ∧
    (∀ e ∈ fetch_indian_news newsOf symbols,
      symbols.find? (surfaces newsOf e.link) = some e.symbol) ∧
    (∀ l, (∃ s ∈ symbols, surfaces newsOf l s = true) →
      l ∈ (fetch_indian_news newsOf symbols).map NewsItem.link) ∧
    (∀ s, newsOf s = Except.error () →
      fetch_indian_news newsOf (s :: symbols) = fetch_indian_news newsOf symbols) := by
  obtain ⟨g1, g2, g3, g4⟩ := newsLoop_invariant newsOf symbols [] [] rfl List.nodup_nil
  refine ⟨g2, ?_, ?_, ?_⟩
  · intro e he
    rcases g3 e he with h | ⟨_, h2⟩
    · exact absurd h (List.not_mem_nil e)
    · exact h2
  · intro l hl
    exact g4 l (Or.inr hl)
  · intro s hs
    unfold fetch_indian_news
    rw [newsLoop_cons_error newsOf s symbols _ hs]

/-- Witness for C5: two symbols share the link `"L1"`, one symbol raises,
one has its own link. -/
theorem fetch_indian_news_dedup_witness :
    ((fetch_indian_news newsShared
        ["RELIANCE.NS", "BAD.NS", "TCS.NS", "INFY.NS"]).map NewsItem.link).Nodup ∧
    (∀ e ∈ fetch_indian_news newsShared ["RELIANCE.NS", "BAD.NS", "TCS.NS", "INFY.NS"],
      (["RELIANCE.NS", "BAD.NS", "TCS.NS", "INFY.NS"] : List String).find?
          (surfaces newsShared e.link) = some e.symbol) ∧
    (∀ l, (∃ s ∈ (["RELIANCE.NS", "BAD.NS", "TCS.NS", "INFY.NS"] : List String),
        surfaces newsShared l s = true) →
      l ∈ (fetch_indian_news newsShared
        ["RELIANCE.NS", "BAD.NS", "TCS.NS", "INFY.NS"]).map NewsItem.link) ∧
    (∀ s, newsShared s = Except.error () →
      fetch_indian_news newsShared (s :: ["RELIANCE.NS", "BAD.NS", "TCS.NS", "INFY.NS"])
        = fetch_indian_news newsShared ["RELIANCE.NS", "BAD.NS", "TCS.NS", "INFY.NS"]) :=
  fetch_indian_news_dedup newsShared ["RELIANCE.NS", "BAD.NS", "TCS.NS", "INFY.NS"]

/-! ## Claim C6 -/

theorem newsLoop_all_error (newsOf : String → Except Unit (List Article)) :
    ∀ (syms : List String) (acc : List NewsItem × List String),
      (∀ s ∈ syms, newsOf s = Except.error ()) → newsLoop newsOf syms acc = acc := by
  intro syms
  induction syms with
  | nil =>
    intro acc _
    rfl
  | cons s rest ih =>
    intro acc h
    rw [newsLoop_cons_error newsOf s rest acc (h s (List.mem_cons_self s rest))]
    exact ih acc (fun x hx => h x (List.mem_cons_of_mem s hx))

/-- C6: none of the fetch functions propagates an upstream exception (in
the embedding each is total, the upstream exception being the
`Except.error` case of its parameter): a raising screening call makes
`fetch_top_stocks` return `[]`, a raising news call makes
`fetch_global_news` return `[]`, and `fetch_indian_news` returns `[]`
when every symbol's request raises. -/
theorem fetchers_degrade_to_empty (get_data : List FilterTerm → Except Unit (List StockRow))
    (rf : Option String) (g : Bool) (news : Except Unit (List Article))
    (newsOf : String → Except Unit (List Article)) (symbols : List String) :
    (get_data (buildFilters rf g) = Except.error () → fetch_top_stocks get_data rf g = []) ∧
    (news = Except.error () → fetch_global_news news = []) ∧
    ((∀ s ∈ symbols, newsOf s = Except.error ()) → fetch_indian_news newsOf symbols = []) := by
  refine ⟨?_, ?_, ?_⟩
  · intro h
    unfold fetch_top_stocks selectedRows
    rw [h]
    rfl
  · intro h
    rw [h]
    rfl
  · intro h
    unfold fetch_indian_news
    rw [newsLoop_all_error newsOf symbols ([], []) h]

/-- Witness for C6: all three fetchers at raising upstreams. -/
theorem fetchers_degrade_to_empty_witness :
    fetch_top_stocks (fun _ => Except.error ()) none true = [] ∧
    fetch_global_news (Except.error ()) = [] ∧
    fetch_indian_news (fun _ => Except.error ()) ["RELIANCE.NS", "TCS.NS"] = [] := by
  have h := fetchers_degrade_to_empty (fun _ => Except.error ()) none true
    (Except.error ()) (fun _ => Except.error ()) ["RELIANCE.NS", "TCS.NS"]
  exact ⟨h.1 rfl, h.2.1 rfl, h.2.2 (fun s _ => rfl)⟩

/-! ## Claim C7 -/

/-- C7: on an empty sheet, `add_to_google_sheet` writes `formData`'s keys
as the header row and appends the stringified values; on a sheet whose
header row is `["a"]` (with at least one data row, so the sheet is
recognised as populated), submitting a new key `c` rewrites the header
to `["a", "c"]` in place — inserting the new header above and deleting
the stale one — and appends the row `["1", "3"]` aligned to the final
header order. -/
theorem add_to_google_sheet_headers (rows : List (List String)) (hne : rows ≠ []) :
    (add_to_google_sheet true [("a", "1"), ("b", "2")] ⟨[]⟩).2.rows
        = [["a", "b"], ["1", "2"]] ∧
    (add_to_google_sheet true [("a", "1"), ("c", "3")] ⟨["a"] :: rows⟩).2.rows
        = ["a", "c"] :: (rows ++ [["1", "3"]]) := by
  constructor
  · rfl
  · have hlen : rows.length ≠ 0 := fun h0 => hne (List.length_eq_zero.mp h0)
    unfold add_to_google_sheet dataRecords
    simp [hlen]
    decide

/-- Witness for C7 at the one-data-row sheet. -/
theorem add_to_google_sheet_headers_witness :
    (add_to_google_sheet true [("a", "1"), ("b", "2")] ⟨[]⟩).2.rows
        = [["a", "b"], ["1", "2"]] ∧
    (add_to_google_sheet true [("a", "1"), ("c", "3")] ⟨["a"] :: [["x"]]⟩).2.rows
        = ["a", "c"] :: ([["x"]] ++ [["1", "3"]]) :=
  add_to_google_sheet_headers [["x"]] (by decide)

/-! ## Helper lemmas: dict-style key update -/

theorem lookup_setKey_self (d : List (String × String)) (k v : String) :
    (setKey d k v).lookup k = some v := by
  induction d with
  | nil => simp [setKey, List.lookup]
  | cons p d ih =>
    by_cases h : p.1 = k
    · simp [setKey, h, List.lookup]
    · have hb : (k == p.1) = false := beq_eq_false_iff_ne.mpr (fun he => h he.symm)
      simp [setKey, h, List.lookup, hb, ih]

theorem lookup_setKey_ne (d : List (String × String)) (k v k' : String) (hne : k' ≠ k) :
    (setKey d k v).lookup k' = d.lookup k' := by
  induction d with
  | nil => simp [setKey, List.lookup, beq_eq_false_iff_ne.mpr hne]
  | cons p d ih =>
    by_cases h : p.1 = k
    · subst h
      simp [setKey, List.lookup, beq_eq_false_iff_ne.mpr hne]
    · simp [setKey, h, List.lookup, ih]

theorem mem_keys_setKey (d : List (String × String)) (k v x : String) :
    x ∈ (setKey d k v).map Prod.fst ↔ x ∈ d.map Prod.fst ∨ x = k := by
  induction d with
  | nil => simp [setKey]
  | cons p d ih =>
    by_cases h : p.1 = k
    · subst h
      simp [setKey]
      tauto
    · simp [setKey, h, ih]
      tauto

theorem nodupKeys_setKey (d : List (String × String)) (k v : String)
    (h : (d.map Prod.fst).Nodup) : ((setKey d k v).map Prod.fst).Nodup := by
  induction d with
  | nil => simp [setKey]
  | cons p d ih =>
    rw [List.map_cons, List.nodup_cons] at h
    by_cases hp : p.1 = k
    · subst hp
      simpa [setKey] using h
    · rw [show setKey (p :: d) k v = p :: setKey d k v from by simp [setKey, hp],
        List.map_cons, List.nodup_cons]
      refine ⟨?_, ih h.2⟩
      rw [mem_keys_setKey]
      rintro (hx | hx)
      · exact h.1 hx
      · exact hp hx

theorem filter_key_eq_nil (d : List (String × String)) (k : String)
    (h : k ∉ d.map Prod.fst) : d.filter (fun p => p.1 == k) = [] := by
  induction d with
  | nil => rfl
  | cons p d ih =>
    rw [List.map_cons, List.mem_cons] at h
    push_neg at h
    rw [List.filter_cons, if_neg (by simpa using fun he => h.1 he.symm)]
    exact ih h.2

theorem filter_setKey_self (d : List (String × String)) (k v : String)
    (hnd : (d.map Prod.fst).Nodup) :
    (setKey d k v).filter (fun p => p.1 == k) = [(k, v)] := by
  induction d with
  | nil => simp [setKey]
  | cons p d ih =>
    rw [List.map_cons, List.nodup_cons] at hnd
    by_cases h : p.1 = k
    · rw [show setKey (p :: d) k v = (k, v) :: d from by simp [setKey, h],
        List.filter_cons, if_pos (by simp)]
      rw [filter_key_eq_nil d k (h ▸ hnd.1)]
    · rw [show setKey (p :: d) k v = p :: setKey d k v from by simp [setKey, h],
        List.filter_cons, if_neg (by simpa using h)]
      exact ih hnd.2

theorem nodupKeys_toFormData (form : List (String × String)) :
    ((toFormData form).map Prod.fst).Nodup := by
  unfold toFormData
  suffices hgen : ∀ d : List (String × String), (d.map Prod.fst).Nodup →
      ((form.foldl (fun d kv => setKey d kv.1
        (if kv.2 = "" then "Not provided" else kv.2)) d).map Prod.fst).Nodup by
    exact hgen [] (by simp)
  induction form with
  | nil =>
    intro d h
    exact h
  | cons kv rest ih =>
    intro d h
    exact ih _ (nodupKeys_setKey d kv.1 _ h)

theorem lookup_foldl_not_mem (form : List (String × String)) (k : String) :
    ∀ d : List (String × String), k ∉ form.map Prod.fst →
      (form.foldl (fun d kv => setKey d kv.1
          (if kv.2 = "" then "Not provided" else kv.2)) d).lookup k
        = d.lookup k := by
  induction form with
  | nil =>
    intro d _
    rfl
  | cons kv rest ih =>
    intro d h
    rw [List.map_cons, List.mem_cons] at h
    push_neg at h
    rw [List.foldl_cons, ih _ h.2, lookup_setKey_ne _ _ _ _ h.1]

theorem lookup_toFormData (form : List (String × String)) (k v : String)
    (hnd : (form.map Prod.fst).Nodup) (hmem : (k, v) ∈ form) :
    (toFormData form).lookup k = some (if v = "" then "Not provided" else v) := by
  unfold toFormData
  suffices hgen : ∀ d : List (String × String),
      (form.foldl (fun d kv => setKey d kv.1
        (if kv.2 = "" then "Not provided" else kv.2)) d).lookup k
      = some (if v = "" then "Not provided" else v) by
    exact hgen []
  induction form with
  | nil => cases hmem
  | cons kv rest ih =>
    intro d
    rw [List.map_cons, List.nodup_cons] at hnd
    rcases List.mem_cons.mp hmem with heq | hmem2
    · have hk : kv.1 = k := by rw [← heq]
      have hv : kv.2 = v := by rw [← heq]
      have hknot : k ∉ rest.map Prod.fst := hk ▸ hnd.1
      rw [List.foldl_cons, lookup_foldl_not_mem rest k _ hknot, hk, hv,
        lookup_setKey_self]
    · exact ih hnd.2 hmem2 _

/-! ## Claim C8 -/

/-- C8: in a `/submit-form` request (with distinct submitted field
names), a field submitted with an empty value is relayed as the literal
`"Not provided"`, the relayed data always carries the server timestamp
under `"timestamp"`, and `email_sent` is `true` exactly when the SMTP
session succeeds with a non-empty configured password — an absent
password or failing send yields `false`, never an exception (the embedded
handler is total). -/
theorem submit_form_relay (form : List (String × String)) (ts ts2 password : String)
    (smtp : Except Unit Unit) (sheet : Sheet)
    (hnd : (form.map Prod.fst).Nodup) :
    (∀ kv ∈ form, kv.1 ≠ "timestamp" → kv.2 = "" →
      ((submit_form form ts ts2 password smtp sheet).1.data.lookup kv.1
        = some "Not provided")) ∧
    ((submit_form form ts ts2 password smtp sheet).1.data.lookup "timestamp" = some ts) ∧
    ((submit_form form ts ts2 password smtp sheet).1.email_sent = true ↔
      (smtp = Except.ok () ∧ password ≠ "")) := by
  refine ⟨?_, ?_, ?_⟩
  · intro kv hkv hne hv
    show (setKey (toFormData form) "timestamp" ts).lookup kv.1 = some "Not provided"
    rw [lookup_setKey_ne _ _ _ _ hne]
    have hpair : (kv.1, kv.2) ∈ form := by
      cases kv
      exact hkv
    have hl := lookup_toFormData form kv.1 kv.2 hnd hpair
    rw [if_pos hv] at hl
    exact hl
  · exact lookup_setKey_self _ _ _
  · cases smtp with
    | error e =>
      cases e
      rw [show (submit_form form ts ts2 password (Except.error ()) sheet).1.email_sent
          = false from rfl]
      simp
    | ok u =>
      cases u
      rw [show (submit_form form ts ts2 password (Except.ok ()) sheet).1.email_sent
          = (if password ≠ "" then true else false) from rfl]
      by_cases hp : password = "" <;> simp [hp]

/-- Witness for C8: fields `{name: "Jo", message: ""}`, a working SMTP
session and a configured password. -/
theorem submit_form_relay_witness :
    (∀ kv ∈ [("name", "Jo"), ("message", "")], kv.1 ≠ "timestamp" → kv.2 = "" →
      ((submit_form [("name", "Jo"), ("message", "")] "T1" "T2" "pw"
          (Except.ok ()) ⟨[]⟩).1.data.lookup kv.1 = some "Not provided")) ∧
    ((submit_form [("name", "Jo"), ("message", "")] "T1" "T2" "pw"
        (Except.ok ()) ⟨[]⟩).1.data.lookup "timestamp" = some "T1") ∧
    ((submit_form [("name", "Jo"), ("message", "")] "T1" "T2" "pw"
        (Except.ok ()) ⟨[]⟩).1.email_sent = true ↔
      (Except.ok () = (Except.ok () : Except Unit Unit) ∧ ("pw" : String) ≠ "")) :=
  submit_form_relay [("name", "Jo"), ("message", "")] "T1" "T2" "pw"
    (Except.ok ()) ⟨[]⟩ (by decide)

/-! ## Claim C9 -/

/-- C9: `/submit-form` never writes the spreadsheet — the
`add_to_google_sheet` call site is commented out, so the sheet state is
returned unchanged — and the response dict has no `sheet_updated` key. -/
theorem submit_form_no_sheet_write (form : List (String × String))
    (ts ts2 password : String) (smtp : Except Unit Unit) (sheet : Sheet) :
    (submit_form form ts ts2 password smtp sheet).2 = sheet ∧
    "sheet_updated" ∉ submitResponseKeys :=
  ⟨rfl, by decide⟩

/-- Witness for C9 at a concrete submission and sheet. -/
theorem submit_form_no_sheet_write_witness :
    (submit_form [("name", "Jo")] "T1" "T2" "pw" (Except.ok ())
        ⟨[["h"], ["x"]]⟩).2 = ⟨[["h"], ["x"]]⟩ ∧
    "sheet_updated" ∉ submitResponseKeys :=
  submit_form_no_sheet_write [("name", "Jo")] "T1" "T2" "pw" (Except.ok ()) ⟨[["h"], ["x"]]⟩

/-! ## Claim C10 -/

/-- C10: the `"timestamp"` entry of the relayed and returned form data is
always the server-generated timestamp: whatever the client submitted
under `"timestamp"` (empty or not), the final data contains exactly one
`"timestamp"` entry and its value is the server's. -/
theorem submit_form_timestamp_overwrite (form : List (String × String))
    (ts ts2 password : String) (smtp : Except Unit Unit) (sheet : Sheet) :
    (submit_form form ts ts2 password smtp sheet).1.data.filter
      (fun p => p.1 == "timestamp") = [("timestamp", ts)] := by
  show (setKey (toFormData form) "timestamp" ts).filter
      (fun p => p.1 == "timestamp") = [("timestamp", ts)]
  exact filter_setKey_self _ _ _ (nodupKeys_toFormData form)

/-- Witness for C10: a client-submitted `timestamp` field is overwritten
by the server timestamp. -/
theorem submit_form_timestamp_overwrite_witness :
    (submit_form [("timestamp", "1999"), ("name", "Jo")] "T1" "T2" "pw"
        (Except.ok ()) ⟨[]⟩).1.data.filter
      (fun p => p.1 == "timestamp") = [("timestamp", "T1")] :=
  submit_form_timestamp_overwrite [("timestamp", "1999"), ("name", "Jo")]
    "T1" "T2" "pw" (Except.ok ()) ⟨[]⟩

end MarketAPI
